import Mathlib

/-!
Verification of the review-analysis core of the IDC Amazon review dashboard.

Strings from the Python source are modelled as lists of characters
(`Str`), pandas missing values as `Option`, float `NaN`/`inf` via the
`PFloat` type, and fallible Python operations (true division by zero,
`float(...)` conversion) as `Except`/`Option` results.  Each definition
below mirrors one function (or one fragment) of `utils.py`,
`pages/1_Statistics.py` or `pages/3_Keyword_Match.py`.
-/

/-- A Python string, modelled as the list of its characters. -/
abbrev Str := List Char

/-- Python `str.lower()` (per-character lowering). -/
def pyLower (s : Str) : Str := s.map Char.toLower

/-- Characters stripped by Python `str.strip()` (ASCII whitespace set). -/
def isPySpace (c : Char) : Bool :=
  c == ' ' || c == '\t' || c == '\n' || c == '\r' ||
  c == Char.ofNat 11 || c == Char.ofNat 12

/-- Python `str.strip()`: drop leading and trailing whitespace. -/
def pyStrip (s : Str) : Str :=
  ((s.dropWhile isPySpace).reverse.dropWhile isPySpace).reverse

/-- Python substring containment `needle in haystack`
(the empty needle is contained in every string). -/
def isSubstr (n : Str) : Str → Bool
  | [] => n.isEmpty
  | c :: t => n.isPrefixOf (c :: t) || isSubstr n t

/-- Python `s.split(',')`: split on every comma, keeping empty pieces
(so the empty string splits into one empty piece). -/
def splitComma (s : Str) : List Str :=
  s.foldr
    (fun c acc =>
      if c = ',' then [] :: acc
      else
        match acc with
        | a :: as => (c :: a) :: as
        | [] => [[c]])
    [[]]

/-- `match_keywords` from `pages/3_Keyword_Match.py`: `False` on missing
text, otherwise tests whether the lowered text contains
`keyword.lower().strip()` for some keyword of the list. -/
def match_keywords (text : Option Str) (keywords : List Str) : Bool :=
  match text with
  | Option.none => false
  | Option.some t => keywords.any (fun k => isSubstr (pyStrip (pyLower k)) (pyLower t))

/-- The keyword list built by `analyze_reviews` from a raw comma-separated
keyword string: split on commas and strip each piece (empty pieces are
kept, mirroring `[k.strip() for k in categories[category].split(',')]`). -/
def cat_keywords (raw : Str) : List Str := (splitComma raw).map pyStrip

/-- The boolean column `Is {category}` computed by `analyze_reviews`:
one entry per row of the `Content` column. -/
def is_category_col (contents : List (Option Str)) (raw : Str) : List Bool :=
  contents.map (fun c => match_keywords c (cat_keywords raw))

/-- The matched count of a category in `analyze_reviews`
(`results[f'Is {category}'].sum()`). -/
def matched_count (contents : List (Option Str)) (raw : Str) : ℕ :=
  (is_category_col contents raw).count true

/-- Python 3 `round(x, 2)` / numpy round to 2 decimals: round half to even
at the second decimal place. -/
def pyRoundHalfEven (x : ℚ) : ℤ :=
  let f : ℤ := Int.floor x
  let r : ℚ := x - f
  if r < 1/2 then f
  else if 1/2 < r then f + 1
  else if f % 2 = 0 then f else f + 1

/-- Round a rational to 2 decimal places, half to even. -/
def round2 (x : ℚ) : ℚ := (pyRoundHalfEven (x * 100) : ℚ) / 100

/-- Python true division `a / b`: raises `ZeroDivisionError` when `b = 0`. -/
def pyDiv (a b : ℚ) : Except Unit ℚ :=
  if b = 0 then Except.error () else Except.ok (a / b)

/-- One entry of the `stats` dictionary of `analyze_reviews`:
`{'matched': int(matched), 'percentage': round(matched / len(df) * 100, 2)}`. -/
def category_stat (contents : List (Option Str)) (raw : Str) : Except Unit (ℕ × ℚ) :=
  match pyDiv (matched_count contents raw : ℚ) (contents.length : ℚ) with
  | Except.error e => Except.error e
  | Except.ok p => Except.ok (matched_count contents raw, round2 (p * 100))

/-- The statistics loop of `analyze_reviews`: one `(name, matched,
percentage)` triple per category, aborting on the first raised error. -/
def analyze_reviews_stats (contents : List (Option Str)) :
    List (String × Str) → Except Unit (List (String × ℕ × ℚ))
  | [] => Except.ok []
  | (n, raw) :: rest =>
    match category_stat contents raw with
    | Except.error e => Except.error e
    | Except.ok (m, p) =>
      match analyze_reviews_stats contents rest with
      | Except.error e => Except.error e
      | Except.ok l => Except.ok ((n, m, p) :: l)

/-- A Python float value: a finite rational, `nan`, or a signed infinity. -/
inductive PFloat where
  | fin : ℚ → PFloat
  | nan : PFloat
  | inf : PFloat
  | ninf : PFloat
deriving DecidableEq, Repr

/-- Python `x >= c` on a float `x` and finite `c` (`nan` compares false). -/
def pfGe : PFloat → ℚ → Bool
  | .fin x, c => decide (c ≤ x)
  | .nan, _ => false
  | .inf, _ => true
  | .ninf, _ => false

/-- Python `x == c` on a float `x` and finite `c` (`nan` compares false). -/
def pfEqNum : PFloat → ℚ → Bool
  | .fin x, c => decide (x = c)
  | _, _ => false

/-- Optional leading sign of a Python float literal. -/
def readSign : Str → Bool × Str
  | '-' :: r => (true, r)
  | '+' :: r => (false, r)
  | s => (false, s)

/-- The numeric value of a digit string (most significant first). -/
def digitsToNat (s : Str) : ℕ := s.foldl (fun a c => a * 10 + (c.toNat - 48)) 0

/-- Parse an optional exponent suffix of a float literal and apply it to
the mantissa `m`. -/
def parseExp (s : Str) (m : ℚ) : Option ℚ :=
  match s with
  | [] => Option.some m
  | e :: r1 =>
    if e = 'e' ∨ e = 'E' then
      let (neg, r2) := readSign r1
      let ds := r2.takeWhile Char.isDigit
      let r3 := r2.dropWhile Char.isDigit
      if ds.isEmpty ∨ ¬r3.isEmpty then Option.none
      else Option.some (m * (10 : ℚ) ^ (if neg then -(digitsToNat ds : ℤ) else (digitsToNat ds : ℤ)))
    else Option.none

/-- Parse an unsigned Python float literal (digits, optional fraction,
optional exponent). -/
def parseUnsigned (s : Str) : Option ℚ :=
  let ip := s.takeWhile Char.isDigit
  let r1 := s.dropWhile Char.isDigit
  match r1 with
  | '.' :: r2 =>
    let fp := r2.takeWhile Char.isDigit
    let r3 := r2.dropWhile Char.isDigit
    if ip.isEmpty ∧ fp.isEmpty then Option.none
    else parseExp r3 ((digitsToNat ip : ℚ) + (digitsToNat fp : ℚ) / (10 : ℚ) ^ fp.length)
  | _ => if ip.isEmpty then Option.none else parseExp r1 (digitsToNat ip)

/-- Python `float(s)` on a string: strips whitespace, accepts an optional
sign, the special spellings `nan` / `inf` / `infinity` (case insensitive),
or a decimal literal; anything else raises `ValueError`. -/
def pyFloatOfString (s : Str) : Except Unit PFloat :=
  let t := pyStrip s
  let (neg, t1) := readSign t
  let low := pyLower t1
  if low = "nan".data then Except.ok PFloat.nan
  else if low = "inf".data ∨ low = "infinity".data then
    Except.ok (if neg then PFloat.ninf else PFloat.inf)
  else
    match parseUnsigned t1 with
    | Option.some q => Except.ok (PFloat.fin (if neg then -q else q))
    | Option.none => Except.error ()

/-- A raw cell value of the `Rating` column before preprocessing. -/
inductive PyVal where
  | f : PFloat → PyVal
  | s : Str → PyVal
  | null : PyVal
deriving DecidableEq, Repr

/-- Python `float(v)`: the identity on floats (including `nan`), string
parsing on strings, and a `TypeError` on `None`. -/
def pyFloat : PyVal → Except Unit PFloat
  | .f x => Except.ok x
  | .s t => pyFloatOfString t
  | .null => Except.error ()

/-- `get_review_type` from `utils.py`: `float(rating)` inside a
`try`/`except` whose handler returns `'unknown'`, then threshold tests. -/
def get_review_type (v : PyVal) : String :=
  match pyFloat v with
  | Except.error _ => "unknown"
  | Except.ok x =>
    if pfGe x 4 then "positive"
    else if pfEqNum x 3 then "neutral"
    else "negative"

/-- `pd.to_numeric(..., errors='coerce')` on one cell: numbers pass
through and unconvertible values become `NaN`. -/
def to_numeric_coerce (v : PyVal) : PFloat :=
  match v with
  | .f x => x
  | .null => PFloat.nan
  | .s t =>
    match pyFloatOfString t with
    | Except.ok x => x
    | Except.error _ => PFloat.nan

/-- The `Review Type` value assigned by `process_data`: the rating cell is
first coerced with `pd.to_numeric(..., errors='coerce')` and the resulting
float column is mapped through `get_review_type`. -/
def pipeline_review_type (v : PyVal) : String :=
  get_review_type (PyVal.f (to_numeric_coerce v))

/-- The required-column list of `process_data` in `utils.py`. -/
def requiredColumnsProcess : List String :=
  ["Asin", "Title", "Content", "Model", "Rating", "Date"]

/-- The schema check loop of `process_data`: report the first missing
required column via `st.error` and stop, otherwise proceed. -/
def process_data_check (cols : List String) : Except String Unit :=
  match requiredColumnsProcess.find? (fun c => !(cols.contains c)) with
  | Option.some c => Except.error ("缺少必要的列: " ++ c)
  | Option.none => Except.ok ()

/-- The required-column list of the statistics page (`1_Statistics.py`). -/
def requiredColumnsStats : List String :=
  ["ID", "Asin", "Title", "Content", "Model", "Rating", "Date", "Review Type"]

/-- The schema check of the statistics page: `all(col in df.columns ...)`;
on failure the page reports the full required list and returns before any
analysis. -/
def statistics_page_check (cols : List String) : Bool :=
  requiredColumnsStats.all (fun c => cols.contains c)

/-- One row of the preprocessed table as used by the statistics functions
of `utils.py`: `Rating` is the coerced float column (`Option.none` is
`NaN`) and `Date` is the coerced datetime column (`Option.none` is `NaT`,
otherwise a (year, month) pair, which is all the monthly bucketing reads). -/
structure StatsRow where
  asin : String
  model : String
  rating : Option ℚ
  reviewType : String
  date : Option (ℕ × ℕ)
deriving DecidableEq, Repr

/-- The composite group value `df['Asin'] + ' - ' + df['Model']` of
`analyze_by_group`. -/
def groupKey (r : StatsRow) : String := r.asin ++ " - " ++ r.model

/-- One count of `df['Review Type'].value_counts()` in
`calculate_review_stats`: the number of rows carrying the given type. -/
def review_type_count (df : List StatsRow) (t : String) : ℕ :=
  df.countP (fun r => decide (r.reviewType = t))

/-- A natural number printed in decimal, left-padded with zeros to `w`
digits. -/
def padNum (w : ℕ) (n : ℕ) : String :=
  let s := toString n
  ⟨List.replicate (w - s.length) '0' ++ s.data⟩

/-- `df['Date'].dt.to_period('M').astype(str)` on one cell: a parsed date
prints as `YYYY-MM`; an unparseable date (`NaT`) prints as the string
`"NaT"`. -/
def monthStr (d : Option (ℕ × ℕ)) : String :=
  match d with
  | Option.none => "NaT"
  | Option.some (y, m) => padNum 4 y ++ "-" ++ padNum 2 m

/-- The `Month` column value of a row in `create_rating_trend_chart`. -/
def month_of (r : StatsRow) : String := monthStr r.date

/-- The `(Month, group)` keys of
`df.groupby(['Month', group_by])['Rating'].mean()`: every distinct pair
occurring in the table (the grouping key is a string column, so no key is
dropped). `g` selects the grouping column (`Asin` or the derived
`Group`). -/
def trend_keys (g : StatsRow → String) (df : List StatsRow) : List (String × String) :=
  (df.map (fun r => (month_of r, g r))).dedup

/-- The mean rating of one `(Month, group)` bucket of the trend series
(`NaN`, i.e. `Option.none`, when the bucket has no non-null rating). -/
def trend_mean (g : StatsRow → String) (df : List StatsRow) (k : String × String) : Option ℚ :=
  let rs := df.filterMap (fun r => if (month_of r, g r) = k then r.rating else Option.none)
  if rs.isEmpty then Option.none else Option.some (rs.sum / rs.length)

/-- The distinct rating values of the table: the columns of the
`rating_dist` matrix built by
`df.groupby([group, 'Rating']).size().unstack(fill_value=0)`. -/
def rating_keys (df : List StatsRow) : List ℚ :=
  (df.filterMap (fun r => r.rating)).dedup

/-- One cell of the `rating_dist` matrix: the number of rows of group `k`
whose rating equals `q` (rows with `NaN` rating are dropped by the
groupby). -/
def rating_cnt (g : StatsRow → String) (df : List StatsRow) (k : String) (q : ℚ) : ℕ :=
  df.countP (fun r => decide (g r = k) && decide (r.rating = Option.some q))

/-- `rating_dist.sum(axis=1)` for one group: the denominator used by
`rating_dist.div(rating_dist.sum(axis=1), axis=0)`. -/
def rating_row_total (g : StatsRow → String) (df : List StatsRow) (k : String) : ℕ :=
  ((rating_keys df).map (rating_cnt g df k)).sum

/-- One cell of `rating_dist_pct`: the group's count at rating `q` divided
by the group's row total, times 100. -/
def rating_pct (g : StatsRow → String) (df : List StatsRow) (k : String) (q : ℚ) : ℚ :=
  (rating_cnt g df k q : ℚ) / (rating_row_total g df k : ℚ) * 100

/-- The sum of one row of the `rating_dist_pct` matrix. -/
def rating_pct_row_sum (g : StatsRow → String) (df : List StatsRow) (k : String) : ℚ :=
  ((rating_keys df).map (rating_pct g df k)).sum

/-- The groups forming the rows of the `rating_dist` matrix: groups of at
least one row with a non-null rating (`groupby([group, 'Rating'])` drops
rows whose rating is `NaN`). -/
def dist_groups (g : StatsRow → String) (df : List StatsRow) : List String :=
  (df.filterMap (fun r => if (r.rating).isSome then Option.some (g r) else Option.none)).dedup

/-- The group labels of `df.groupby('Group')` in `analyze_by_group`. -/
def group_names (df : List StatsRow) : List String := (df.map groupKey).dedup

/-- The non-null ratings of one composite group (pandas `count`, `mean`
and `std` aggregate over exactly these). -/
def group_ratings (df : List StatsRow) (k : String) : List ℚ :=
  df.filterMap (fun r => if groupKey r = k then r.rating else Option.none)

/-- The `('Rating', 'count')` aggregate of `analyze_by_group`. -/
def group_count (df : List StatsRow) (k : String) : ℕ := (group_ratings df k).length

/-- The `('Rating', 'mean')` aggregate of `analyze_by_group`, rounded to 2
decimals by the trailing `.round(2)` (`NaN` when the group has no rating). -/
def group_mean (df : List StatsRow) (k : String) : Option ℚ :=
  let l := group_ratings df k
  if l.isEmpty then Option.none else Option.some (round2 (l.sum / l.length))

/-- The sample variance (ddof = 1) underlying the `('Rating', 'std')`
aggregate of `analyze_by_group`: the reported standard deviation is the
square root of this value rounded to 2 decimals, and it is `NaN` exactly
when this is `Option.none`, namely for groups with fewer than 2 counted
ratings. -/
def group_var (df : List StatsRow) (k : String) : Option ℚ :=
  let l := group_ratings df k
  if l.length < 2 then Option.none
  else Option.some ((l.map (fun x => (x - l.sum / l.length) ^ 2)).sum / ((l.length : ℚ) - 1))

/-- A two-row table whose second row has an unparseable date, used to
exercise the trend bucketing. -/
def natRowTable : List StatsRow :=
  [⟨"A1", "M1", Option.some 5, "positive", Option.some (2023, 1)⟩,
   ⟨"A1", "M1", Option.some 1, "negative", Option.none⟩]

/-- The three-row table of end-to-end scenario 3. -/
def scenario3 : List StatsRow :=
  [⟨"A1", "M1", Option.some 4, "positive", Option.some (2023, 1)⟩,
   ⟨"A1", "M1", Option.some 5, "positive", Option.some (2023, 2)⟩,
   ⟨"A1", "M2", Option.some 2, "negative", Option.some (2023, 1)⟩]

/-! Category store persistence (`load_categories` / `save_categories` in
`pages/3_Keyword_Match.py`).  The two functions are thin wrappers over the
external `json` library (`json.dump(categories, f, ensure_ascii=False,
indent=2)` and `json.load(f)`); the serializer and parser below model that
library's behaviour on flat string-to-string objects. -/

/-- Lower-case hexadecimal digit, as used by `json.dump` in `\uXXXX`
escapes. -/
def hexDigit (n : ℕ) : Char :=
  if n < 10 then Char.ofNat (48 + n) else Char.ofNat (87 + n)

/-- The escape of one character in a `json.dump` string with
`ensure_ascii=False`: quote, backslash and the named control characters
get two-character escapes, other control characters get `\u00XX`, and
everything else (including non-ASCII) is written as itself. -/
def escChar (c : Char) : Str :=
  if c = '"' then ['\\', '"']
  else if c = '\\' then ['\\', '\\']
  else if c = '\n' then ['\\', 'n']
  else if c = '\t' then ['\\', 't']
  else if c = '\r' then ['\\', 'r']
  else if c = Char.ofNat 8 then ['\\', 'b']
  else if c = Char.ofNat 12 then ['\\', 'f']
  else if c.toNat < 32 then
    ['\\', 'u', '0', '0', hexDigit (c.toNat / 16), hexDigit (c.toNat % 16)]
  else [c]

/-- A whole string body escaped for a JSON string literal. -/
def escape : Str → Str
  | [] => []
  | c :: t => escChar c ++ escape t

/-- One `  "key": "value"` line of `json.dump(..., indent=2)`. -/
def serPair (kv : Str × Str) : Str :=
  ' ' :: ' ' :: '"' :: (escape kv.1 ++ '"' :: ':' :: ' ' :: '"' :: (escape kv.2 ++ ['"']))

/-- The comma-and-newline separated pair lines of `json.dump(..., indent=2)`. -/
def serPairs : List (Str × Str) → Str
  | [] => []
  | [kv] => serPair kv
  | kv :: rest => serPair kv ++ ',' :: '\n' :: serPairs rest

/-- The full `json.dump` text of a flat string-to-string object with
`indent=2`: `{}` for the empty mapping, otherwise braces around the pair
lines. -/
def serObj : List (Str × Str) → Str
  | [] => ['{', '}']
  | ps => '{' :: '\n' :: (serPairs ps ++ ['\n', '}'])

/-- The value of a hexadecimal digit accepted by `json.load` in `\uXXXX`. -/
def unhex (c : Char) : Option ℕ :=
  if '0' ≤ c ∧ c ≤ '9' then Option.some (c.toNat - 48)
  else if 'a' ≤ c ∧ c ≤ 'f' then Option.some (c.toNat - 87)
  else if 'A' ≤ c ∧ c ≤ 'F' then Option.some (c.toNat - 55)
  else Option.none

/-- The named two-character escapes accepted by `json.load`. -/
def decodeEsc (e : Char) : Option Char :=
  if e = '"' then Option.some '"'
  else if e = '\\' then Option.some '\\'
  else if e = '/' then Option.some '/'
  else if e = 'n' then Option.some '\n'
  else if e = 't' then Option.some '\t'
  else if e = 'r' then Option.some '\r'
  else if e = 'b' then Option.some (Char.ofNat 8)
  else if e = 'f' then Option.some (Char.ofNat 12)
  else Option.none

/-- `json.load`'s string scanner, positioned just after an opening quote:
returns the decoded body and the input following the closing quote, or
`Option.none` on malformed input. -/
def parseJStr : Str → Option (Str × Str)
  | [] => Option.none
  | c :: rest =>
    if c = '"' then Option.some ([], rest)
    else if c = '\\' then
      match rest with
      | [] => Option.none
      | 'u' :: h1 :: h2 :: h3 :: h4 :: rest3 =>
        match unhex h1, unhex h2, unhex h3, unhex h4 with
        | Option.some a, Option.some b, Option.some c2, Option.some d =>
          match parseJStr rest3 with
          | Option.some (s, r) =>
            Option.some (Char.ofNat (((a * 16 + b) * 16 + c2) * 16 + d) :: s, r)
          | Option.none => Option.none
        | _, _, _, _ => Option.none
      | e :: rest2 =>
        match decodeEsc e with
        | Option.some c2 =>
          match parseJStr rest2 with
          | Option.some (s, r) => Option.some (c2 :: s, r)
          | Option.none => Option.none
        | Option.none => Option.none
    else
      match parseJStr rest with
      | Option.some (s, r) => Option.some (c :: s, r)
      | Option.none => Option.none

/-- JSON insignificant whitespace. -/
def isWsChar (c : Char) : Bool :=
  c == ' ' || c == '\n' || c == '\t' || c == '\r'

/-- Skip insignificant whitespace. -/
def skipWs (s : Str) : Str := s.dropWhile isWsChar

/-- Consume one expected punctuation character. -/
def expectChar (c : Char) (s : Str) : Option Str :=
  match s with
  | x :: r => if x = c then Option.some r else Option.none
  | [] => Option.none

/-- `json.load`'s member list scanner for a flat string-to-string object,
fuelled by an upper bound on the number of pairs; returns the parsed
pairs when the input is a well-formed `"k": "v"` list closed by `}` and
end of input. -/
def parsePairsF : ℕ → Str → Option (List (Str × Str))
  | 0, _ => Option.none
  | fuel + 1, s =>
    match expectChar '"' (skipWs s) with
    | Option.none => Option.none
    | Option.some r1 =>
      match parseJStr r1 with
      | Option.none => Option.none
      | Option.some (k, r2) =>
        match expectChar ':' (skipWs r2) with
        | Option.none => Option.none
        | Option.some r3 =>
          match expectChar '"' (skipWs r3) with
          | Option.none => Option.none
          | Option.some r4 =>
            match parseJStr r4 with
            | Option.none => Option.none
            | Option.some (v, r5) =>
              match expectChar ',' (skipWs r5) with
              | Option.some r6 =>
                match parsePairsF fuel r6 with
                | Option.some ps => Option.some ((k, v) :: ps)
                | Option.none => Option.none
              | Option.none =>
                match expectChar '}' (skipWs r5) with
                | Option.some r7 =>
                  if skipWs r7 = [] then Option.some [(k, v)] else Option.none
                | Option.none => Option.none

/-- `json.load` of a flat string-to-string object document. -/
def parseObj (s : Str) : Option (List (Str × Str)) :=
  match expectChar '{' (skipWs s) with
  | Option.none => Option.none
  | Option.some r =>
    match expectChar '}' (skipWs r) with
    | Option.some r2 => if skipWs r2 = [] then Option.some [] else Option.none
    | Option.none => parsePairsF (s.length + 1) r

/-- The persisted storage of the Category Store: the contents of
`categories.json`, `Option.none` when the file does not exist. -/
abbrev Storage := Option Str

/-- `load_categories` from `pages/3_Keyword_Match.py`: an empty mapping
when the file is missing (`os.path.exists` guard), otherwise `json.load`
of the contents, raising on malformed JSON. -/
def load_categories (fs : Storage) : Except Unit (List (Str × Str)) :=
  match fs with
  | Option.none => Except.ok []
  | Option.some s =>
    match parseObj s with
    | Option.some m => Except.ok m
    | Option.none => Except.error ()

/-- `save_categories` from `pages/3_Keyword_Match.py`: write
`json.dump(categories, f, ensure_ascii=False, indent=2)`. -/
def save_categories (m : List (Str × Str)) : Storage := Option.some (serObj m)

/-- A dataframe cell, as read by the column-adding statements of
`analyze_by_group` and `create_rating_trend_chart` (string columns, the
coerced rating column, the coerced datetime column). -/
inductive Cell where
  | str : String → Cell
  | num : Option ℚ → Cell
  | date : Option (ℕ × ℕ) → Cell
deriving DecidableEq, Repr

/-- A dataframe row: column names in order, each with its cell. -/
abbrev TRow := List (String × Cell)

/-- A dataframe as a list of rows sharing one column layout. -/
abbrev Table := List TRow

/-- Read a string column of a row (`df['Asin']`, `df['Model']`). -/
def getStrCell (r : TRow) (n : String) : String :=
  match r.lookup n with
  | Option.some (Cell.str v) => v
  | _ => ""

/-- Read the datetime column of a row (`df['Date']`). -/
def getDateCell (r : TRow) (n : String) : Option (ℕ × ℕ) :=
  match r.lookup n with
  | Option.some (Cell.date v) => v
  | _ => Option.none

/-- Column assignment `df[name] = value` on one row: pandas replaces an
existing column in place, or appends a new column at the end. -/
def setField (r : TRow) (n : String) (v : Cell) : TRow :=
  match r with
  | [] => [(n, v)]
  | (k, w) :: t => if k = n then (n, v) :: t else (k, w) :: setField t n v

/-- The caller's dataframe after the composite branch of
`analyze_by_group(df, ['Asin', 'Model'])`, which executes
`df['Group'] = df['Asin'] + ' - ' + df['Model']` on the caller's object
(no copy is taken). -/
def analyze_by_group_table (t : Table) : Table :=
  t.map (fun r =>
    setField r "Group" (Cell.str (getStrCell r "Asin" ++ " - " ++ getStrCell r "Model")))

/-- The caller's dataframe after `create_rating_trend_chart(df, group_by)`,
which executes `df['Month'] = df['Date'].dt.to_period('M').astype(str)` on
the caller's object (no copy is taken). -/
def create_rating_trend_chart_table (t : Table) : Table :=
  t.map (fun r => setField r "Month" (Cell.str (monthStr (getDateCell r "Date"))))

/-- A one-row table with the columns read by the mutating statements. -/
def c9row : TRow :=
  [("Asin", Cell.str "A1"), ("Model", Cell.str "M1"), ("Date", Cell.date Option.none)]

/-! ### Helper lemmas -/

theorem isSubstr_iff (n h : Str) : isSubstr n h = true ↔ n <:+: h := by
  induction h with
  | nil =>
    simp [isSubstr, List.isEmpty_iff]
  | cons c t ih =>
    simp [isSubstr, ih, List.infix_cons_iff, List.isPrefixOf_iff_prefix]

theorem any_perm_eq {α : Type} {l l' : List α} (f : α → Bool) (hp : l.Perm l') :
    l.any f = l'.any f := by
  cases h1 : l.any f with
  | true =>
    rcases List.any_eq_true.mp h1 with ⟨a, ha, hf⟩
    exact (List.any_eq_true.mpr ⟨a, hp.mem_iff.mp ha, hf⟩).symm
  | false =>
    cases h2 : l'.any f with
    | true =>
      rcases List.any_eq_true.mp h2 with ⟨a, ha, hf⟩
      have := List.any_eq_true.mpr ⟨a, hp.mem_iff.mpr ha, hf⟩
      rw [h1] at this
      exact absurd this (by simp)
    | false => rfl

theorem sum_map_add_nat {α : Type} (K : List α) (f h : α → ℕ) :
    (K.map (fun a => f a + h a)).sum = (K.map f).sum + (K.map h).sum := by
  induction K with
  | nil => rfl
  | cons a t ih => simp only [List.map_cons, List.sum_cons, ih]; ring

theorem sum_map_ite_single {α : Type} [DecidableEq α] {K : List α} (hK : K.Nodup)
    {x : α} (hx : x ∈ K) (c : ℕ) :
    (K.map (fun a => if x = a then c else 0)).sum = c := by
  induction K with
  | nil => cases hx
  | cons a t ih =>
    rcases List.nodup_cons.mp hK with ⟨hna, hnd⟩
    rcases List.mem_cons.mp hx with h | h
    · subst h
      have hz : (t.map (fun a => if x = a then c else 0)).sum = 0 := by
        refine List.sum_eq_zero ?_
        intro y hy
        rcases List.mem_map.mp hy with ⟨b, hb, rfl⟩
        have hxb : x ≠ b := fun he => hna (he ▸ hb)
        simp [hxb]
      simp [hz]
    · have hne : x ≠ a := fun he => hna (he ▸ h)
      simp only [List.map_cons, List.sum_cons, if_neg hne, Nat.zero_add]
      exact ih hnd h

theorem countP_rating_partition (p : StatsRow → Bool) (K : List ℚ) (hK : K.Nodup)
    (l : List StatsRow)
    (hcov : ∀ r ∈ l, p r = true → ∀ q, r.rating = Option.some q → q ∈ K) :
    (K.map (fun q => l.countP (fun r => p r && decide (r.rating = Option.some q)))).sum =
      l.countP (fun r => p r && (r.rating).isSome) := by
  induction l with
  | nil =>
    simp only [List.countP_nil]
    refine List.sum_eq_zero ?_
    intro x hx
    rcases List.mem_map.mp hx with ⟨q, _, rfl⟩
    rfl
  | cons r t ih =>
    have hcovt : ∀ r' ∈ t, p r' = true → ∀ q, r'.rating = Option.some q → q ∈ K :=
      fun r' h => hcov r' (List.mem_cons_of_mem _ h)
    simp only [List.countP_cons]
    rw [sum_map_add_nat, ih hcovt]
    congr 1
    cases hp : p r with
    | false =>
      simp only [hp, Bool.false_and, if_neg (by simp : ¬ (false = true))]
      refine List.sum_eq_zero ?_
      intro x hx
      rcases List.mem_map.mp hx with ⟨q, _, rfl⟩
      rfl
    | true =>
      cases hr : r.rating with
      | none =>
        simp only [hp, hr, Bool.true_and, Option.isSome_none]
        have : ∀ q : ℚ, (if (decide ((Option.none : Option ℚ) = Option.some q)) = true then 1 else 0) = 0 := by
          intro q; simp
        simp only [this]
        refine (List.sum_eq_zero ?_).trans (by simp)
        intro x hx
        rcases List.mem_map.mp hx with ⟨q, _, rfl⟩
        rfl
      | some q0 =>
        have hq0 : q0 ∈ K := hcov r (List.mem_cons_self r t) hp q0 hr
        simp only [hp, hr, Bool.true_and, Option.isSome_some, if_pos rfl]
        have he : (K.map (fun q => if (decide ((Option.some q0 : Option ℚ) = Option.some q)) = true then 1 else 0)) =
            K.map (fun q => if q0 = q then 1 else 0) := by
          refine List.map_congr_left ?_
          intro q _
          by_cases h : q0 = q <;> simp [h]
        rw [he, sum_map_ite_single hK hq0 1]
        simp

theorem rating_row_total_eq (g : StatsRow → String) (df : List StatsRow) (k : String) :
    rating_row_total g df k =
      df.countP (fun r => decide (g r = k) && (r.rating).isSome) := by
  unfold rating_row_total rating_cnt
  exact countP_rating_partition _ _ (List.nodup_dedup _) df
    (fun r hr _ q hq => List.mem_dedup.mpr (List.mem_filterMap.mpr ⟨r, hr, hq⟩))

theorem sum_map_qdiv {α : Type} (K : List α) (f : α → ℕ) (D : ℚ) :
    (K.map (fun a => (f a : ℚ) / D * 100)).sum = ((K.map f).sum : ℚ) / D * 100 := by
  induction K with
  | nil => simp
  | cons a t ih =>
    simp only [List.map_cons, List.sum_cons, ih]
    push_cast
    ring

theorem unhex_hexDigit (n : ℕ) (h : n < 16) : unhex (hexDigit n) = Option.some n := by
  interval_cases n <;> decide

theorem parseJStr_escape (s : Str) : ∀ rest : Str,
    parseJStr (escape s ++ '"' :: rest) = Option.some (s, rest) := by
  induction s with
  | nil =>
    intro rest
    show parseJStr ('"' :: rest) = Option.some ([], rest)
    rw [parseJStr.eq_def]
    simp
  | cons c t ih =>
    intro rest
    show parseJStr (escChar c ++ escape t ++ '"' :: rest) = Option.some (c :: t, rest)
    by_cases h1 : c = '"'
    · subst h1; simp [escChar, parseJStr, decodeEsc, ih]
    by_cases h2 : c = '\\'
    · subst h2; simp [escChar, parseJStr, decodeEsc, ih]
    by_cases h3 : c = '\n'
    · subst h3; simp [escChar, parseJStr, decodeEsc, ih]
    by_cases h4 : c = '\t'
    · subst h4; simp [escChar, parseJStr, decodeEsc, ih]
    by_cases h5 : c = '\r'
    · subst h5; simp [escChar, parseJStr, decodeEsc, ih]
    by_cases h6 : c = Char.ofNat 8
    · subst h6; simp [escChar, parseJStr, decodeEsc, ih]
    by_cases h7 : c = Char.ofNat 12
    · subst h7; simp [escChar, parseJStr, decodeEsc, ih]
    by_cases h8 : c.toNat < 32
    · have hdiv : c.toNat / 16 < 16 := by omega
      have hmod : c.toNat % 16 < 16 := by omega
      have h00 : unhex '0' = Option.some 0 := by decide
      have he : ((0 * 16 + 0) * 16 + c.toNat / 16) * 16 + c.toNat % 16 = c.toNat := by
        omega
      simp only [escChar, if_neg h1, if_neg h2, if_neg h3, if_neg h4, if_neg h5,
        if_neg h6, if_neg h7, if_pos h8, List.cons_append, List.append_assoc]
      simp [parseJStr, h00, unhex_hexDigit _ hdiv, unhex_hexDigit _ hmod, ih, he,
        Char.ofNat_toNat]
      have he2 : c.toNat / 16 * 16 + c.toNat % 16 = c.toNat := by omega
      rw [he2, Char.ofNat_toNat]
    · simp only [escChar, if_neg h1, if_neg h2, if_neg h3, if_neg h4, if_neg h5,
        if_neg h6, if_neg h7, if_neg h8, List.cons_append, List.nil_append]
      rw [parseJStr.eq_def]
      simp [h1, h2, ih]

theorem skipWs_space (X : Str) : skipWs (' ' :: X) = skipWs X := by
  simp [skipWs, List.dropWhile, isWsChar]

theorem skipWs_nl (X : Str) : skipWs ('\n' :: X) = skipWs X := by
  simp [skipWs, List.dropWhile, isWsChar]

theorem skipWs_quote (X : Str) : skipWs ('"' :: X) = '"' :: X := by
  simp [skipWs, List.dropWhile, isWsChar]

theorem skipWs_colon (X : Str) : skipWs (':' :: X) = ':' :: X := by
  simp [skipWs, List.dropWhile, isWsChar]

theorem skipWs_comma (X : Str) : skipWs (',' :: X) = ',' :: X := by
  simp [skipWs, List.dropWhile, isWsChar]

theorem skipWs_rbrace (X : Str) : skipWs ('}' :: X) = '}' :: X := by
  simp [skipWs, List.dropWhile, isWsChar]

theorem skipWs_lbrace (X : Str) : skipWs ('{' :: X) = '{' :: X := by
  simp [skipWs, List.dropWhile, isWsChar]

theorem skipWs_empty : skipWs [] = [] := rfl

theorem expectChar_self (c : Char) (X : Str) : expectChar c (c :: X) = Option.some X := by
  simp [expectChar]

theorem expectComma_rbrace (X : Str) : expectChar ',' ('}' :: X) = Option.none := by
  simp [expectChar]

theorem expectRbrace_quote (X : Str) : expectChar '}' ('"' :: X) = Option.none := by
  simp [expectChar]

theorem parsePairsF_nl (f : ℕ) (X : Str) :
    parsePairsF f ('\n' :: X) = parsePairsF f X := by
  cases f with
  | zero => rfl
  | succ f => simp only [parsePairsF, skipWs_nl]

theorem parsePairsF_serPairs (ps : List (Str × Str)) : ∀ (fuel : ℕ), ps ≠ [] →
    ps.length ≤ fuel →
    parsePairsF fuel (serPairs ps ++ ['\n', '}']) = Option.some ps := by
  induction ps with
  | nil => intro fuel h _; exact absurd rfl h
  | cons kv rest ih =>
    intro fuel _ hlen
    obtain ⟨k, v⟩ := kv
    cases fuel with
    | zero => simp at hlen
    | succ f =>
      cases rest with
      | nil =>
        show parsePairsF (f + 1) (serPairs [(k, v)] ++ ['\n', '}']) = Option.some [(k, v)]
        simp only [serPairs, serPair, List.cons_append, List.append_assoc, List.nil_append,
          parsePairsF, skipWs_space, skipWs_nl, skipWs_quote, skipWs_colon,
          skipWs_rbrace, skipWs_empty, expectChar_self, expectComma_rbrace,
          parseJStr_escape, if_pos rfl, if_true]
      | cons kv2 rest2 =>
        show parsePairsF (f + 1) (serPairs ((k, v) :: kv2 :: rest2) ++ ['\n', '}']) =
          Option.some ((k, v) :: kv2 :: rest2)
        have hser : serPairs ((k, v) :: kv2 :: rest2) =
            serPair (k, v) ++ ',' :: '\n' :: serPairs (kv2 :: rest2) := rfl
        rw [hser]
        simp only [serPair, List.cons_append, List.append_assoc, List.nil_append,
          parsePairsF, skipWs_space, skipWs_quote, skipWs_colon, skipWs_comma,
          expectChar_self, parseJStr_escape, parsePairsF_nl]
        rw [ih f (by simp) (by simp at hlen ⊢; omega)]

theorem serPairs_cons_shape (kv : Str × Str) (rest : List (Str × Str)) :
    ∃ X, serPairs (kv :: rest) = ' ' :: ' ' :: '"' :: X := by
  cases rest <;> exact ⟨_, rfl⟩

theorem serPairs_length (ps : List (Str × Str)) : ps.length ≤ (serPairs ps).length := by
  induction ps with
  | nil => simp [serPairs]
  | cons kv rest ih =>
    cases rest with
    | nil => simp [serPairs, serPair]
    | cons kv2 rest2 =>
      have hser : serPairs (kv :: kv2 :: rest2) =
          serPair kv ++ ',' :: '\n' :: serPairs (kv2 :: rest2) := rfl
      rw [hser]
      simp only [List.length_cons, List.length_append, serPair] at ih ⊢
      omega

theorem parseObj_serObj (ps : List (Str × Str)) : parseObj (serObj ps) = Option.some ps := by
  cases ps with
  | nil => rfl
  | cons kv rest =>
    have hobj : serObj (kv :: rest) =
        '{' :: '\n' :: (serPairs (kv :: rest) ++ ['\n', '}']) := rfl
    rw [hobj]
    unfold parseObj
    rw [skipWs_lbrace, expectChar_self]
    obtain ⟨X, hX⟩ := serPairs_cons_shape kv rest
    have hskip : skipWs ('\n' :: (serPairs (kv :: rest) ++ ['\n', '}'])) =
        '"' :: (X ++ ['\n', '}']) := by
      rw [hX]
      simp only [List.cons_append]
      rw [skipWs_nl, skipWs_space, skipWs_space, skipWs_quote]
    simp only [hskip, expectRbrace_quote]
    rw [parsePairsF_nl]
    rw [parsePairsF_serPairs _ _ (by simp)]
    have h1 := serPairs_length (kv :: rest)
    simp only [List.length_cons, List.length_append] at h1 ⊢
    omega

theorem setField_of_fresh (r : TRow) (n : String) (v : Cell)
    (h : n ∉ r.map Prod.fst) : setField r n v = r ++ [(n, v)] := by
  induction r with
  | nil => rfl
  | cons kv t ih =>
    obtain ⟨k, w⟩ := kv
    simp only [List.map_cons, List.mem_cons] at h
    push_neg at h
    obtain ⟨hne, ht⟩ := h
    have hkn : ¬k = n := fun he => hne he.symm
    simp only [setField, if_neg hkn, List.cons_append, ih ht]

theorem lookup_append_single (r : TRow) (n m : String) (v : Cell) (h : n ≠ m) :
    (r ++ [(m, v)]).lookup n = r.lookup n := by
  induction r with
  | nil =>
    have hb : (n == m) = false := beq_eq_false_iff_ne.mpr h
    simp [List.lookup, hb]
  | cons kv t ih =>
    obtain ⟨k, w⟩ := kv
    simp only [List.cons_append, List.lookup]
    cases h2 : (n == k) <;> simp [ih]

/-! ### Claims -/

/-- Claim C6: the keyword matcher returns `false` on missing text and on an
empty keyword list, otherwise returns `true` exactly when the lowered text
contains the lowered-and-trimmed form of some keyword as a contiguous
substring, and the result is invariant under permutation of the keyword
list. -/
theorem c6_match_keywords_spec :
    (∀ kws, match_keywords Option.none kws = false) ∧
    (∀ text, match_keywords text [] = false) ∧
    (∀ t kws, match_keywords (Option.some t) kws = true ↔
      ∃ k ∈ kws, pyStrip (pyLower k) <:+: pyLower t) ∧
    (∀ text kws kws', kws.Perm kws' →
      match_keywords text kws = match_keywords text kws') := by
  refine ⟨fun kws => rfl, fun text => ?_, fun t kws => ?_, fun text kws kws' hp => ?_⟩
  · cases text <;> rfl
  · simp [match_keywords, List.any_eq_true, isSubstr_iff]
  · cases text with
    | none => rfl
    | some t => exact any_perm_eq _ hp

/-- Claim C6 witness: concrete evaluations of the matcher. -/
theorem c6_match_keywords_spec_witness :
    match_keywords (Option.some ("great gift for my girl".data)) ["kids".data, "girl".data] = true ∧
    match_keywords (Option.some ("great gift for my dog".data)) [] = false ∧
    match_keywords (Option.some ("abc".data)) ["B ".data, " a".data] =
      match_keywords (Option.some ("abc".data)) [" a".data, "B ".data] := by
  refine ⟨?_, c6_match_keywords_spec.2.1 _, ?_⟩
  · exact (c6_match_keywords_spec.2.2.1 _ _).mpr ⟨"girl".data, by decide, by decide⟩
  · exact c6_match_keywords_spec.2.2.2 _ _ _ (by decide)

/-- Claim C2 (code bug): a category whose raw keyword string is empty or
all-whitespace yields an all-`true` column and a positive matched count on
any non-null content, because `analyze_reviews` keeps empty pieces after
splitting and stripping, and the empty keyword is a substring of every
text. -/
theorem c2_empty_keywords_match_all :
    is_category_col [Option.some "hello".data] [] = [true] ∧
    matched_count [Option.some "hello".data] [] = 1 ∧
    is_category_col [Option.some "hello".data] [' '] = [true] ∧
    matched_count [Option.some "hello".data] [' '] = 1 := by
  decide

/-- Claim C10: classifying an empty table with at least one configured
category raises a division-by-zero error in the percentage computation. -/
theorem c10_empty_table_div_error (cats : List (String × Str)) (h : cats ≠ []) :
    analyze_reviews_stats [] cats = Except.error () := by
  cases cats with
  | nil => exact absurd rfl h
  | cons c t =>
    cases c with
    | mk n raw =>
      simp [analyze_reviews_stats, category_stat, pyDiv]

/-- Claim C10 witness: one category, empty table. -/
theorem c10_empty_table_div_error_witness :
    analyze_reviews_stats [] [("kids", "kids,girl".data)] = Except.error () :=
  c10_empty_table_div_error _ (by decide)

/-- Claim C1 (code bug): a rating string that fails numeric coercion
becomes `NaN` during preprocessing, and `get_review_type` classifies the
coerced `NaN` as `negative` (every comparison with `NaN` is false), not as
`unknown`; only the classifier applied directly to the raw string returns
`unknown`. -/
theorem c1_coerced_rating_negative :
    to_numeric_coerce (PyVal.s "abc".data) = PFloat.nan ∧
    pipeline_review_type (PyVal.s "abc".data) = "negative" ∧
    pipeline_review_type (PyVal.s "abc".data) ≠ "unknown" ∧
    get_review_type (PyVal.f PFloat.nan) = "negative" ∧
    get_review_type (PyVal.s "abc".data) = "unknown" := by
  decide

/-- Claim C4 counterexample: with both `Asin` and `Rating` missing,
`process_data` reports only the first missing column (`Asin`); the error
text does not name `Rating`. -/
theorem c4_first_missing_only :
    process_data_check ["Title", "Content", "Model", "Date"] =
      Except.error "缺少必要的列: Asin" ∧
    "Rating" ∈ requiredColumnsProcess ∧
    "Rating" ∉ (["Title", "Content", "Model", "Date"] : List String) ∧
    isSubstr "Rating".data "缺少必要的列: Asin".data = false := by
  exact ⟨rfl, by decide, by decide, by decide⟩

/-- Claim C4 amended: schema validation fails before analysis whenever a
required column is missing, but `process_data` names only the first
missing column; the statistics page's check succeeds exactly when every
required column is present (extra columns tolerated), failing with the
full required list otherwise. -/
theorem c4_schema_check_amended (cols : List String) :
    (process_data_check cols = Except.ok () ↔
      ∀ c ∈ requiredColumnsProcess, c ∈ cols) ∧
    (∀ msg, process_data_check cols = Except.error msg →
      ∃ c ∈ requiredColumnsProcess, c ∉ cols ∧ msg = "缺少必要的列: " ++ c) ∧
    (statistics_page_check cols = true ↔
      ∀ c ∈ requiredColumnsStats, c ∈ cols) := by
  refine ⟨?_, ?_, ?_⟩
  · unfold process_data_check
    cases h : requiredColumnsProcess.find? (fun c => !(cols.contains c)) with
    | some c =>
      simp only [reduceCtorEq, false_iff]
      intro hall
      have hc := List.find?_some h
      have hmem := List.mem_of_find?_eq_some h
      simp only [Bool.not_eq_eq_eq_not, Bool.not_true] at hc
      have := hall c hmem
      simp [List.elem_iff] at hc
      exact hc this
    | none =>
      simp only [true_iff]
      intro c hcmem
      have := List.find?_eq_none.mp h c hcmem
      simp [List.elem_iff] at this
      exact this
  · intro msg hmsg
    unfold process_data_check at hmsg
    cases h : requiredColumnsProcess.find? (fun c => !(cols.contains c)) with
    | some c =>
      rw [h] at hmsg
      have hc := List.find?_some h
      have hmem := List.mem_of_find?_eq_some h
      simp only [Bool.not_eq_eq_eq_not, Bool.not_true] at hc
      simp [List.elem_iff] at hc
      refine ⟨c, hmem, hc, ?_⟩
      cases hmsg
      rfl
    | none =>
      rw [h] at hmsg
      cases hmsg
  · simp [statistics_page_check, List.all_eq_true, List.elem_iff]

/-- Claim C4 witness: the check passes on the full required set and a
concrete failing table yields a single-column error message. -/
theorem c4_schema_check_amended_witness :
    process_data_check requiredColumnsProcess = Except.ok () ∧
    ∃ c ∈ requiredColumnsProcess, c ∉ (["Title"] : List String) ∧
      ("缺少必要的列: Asin" : String) = "缺少必要的列: " ++ c := by
  constructor
  · exact (c4_schema_check_amended requiredColumnsProcess).1.mpr (fun c hc => hc)
  · exact (c4_schema_check_amended ["Title"]).2.1 "缺少必要的列: Asin" rfl

/-- Claim C3 counterexample: a row with an unparseable `Date` is not
excluded from the monthly trend series: it forms the `("NaT", group)`
bucket, whose mean is the row's rating. -/
theorem c3_nat_bucket_in_trend :
    ("NaT", "A1") ∈ trend_keys (fun r => r.asin) natRowTable ∧
    trend_mean (fun r => r.asin) natRowTable ("NaT", "A1") = Option.some 1 ∧
    review_type_count natRowTable "negative" = 1 := by
  refine ⟨by decide, ?_, by decide⟩
  have h : (natRowTable.filterMap fun r =>
      if (month_of r, r.asin) = ("NaT", "A1") then r.rating else Option.none) = [1] := by
    decide
  simp only [trend_mean, h]
  norm_num

/-- Claim C3 amended: a row whose `Date` failed to parse is not excluded
from the monthly trend series; it is bucketed (without error) under the
sentinel month string `"NaT"` paired with its group, and it still appears
in the review-type summary. -/
theorem c3_nat_rows_bucketed (g : StatsRow → String) (df : List StatsRow)
    (r : StatsRow) (hr : r ∈ df) (hd : r.date = Option.none) :
    ("NaT", g r) ∈ trend_keys g df ∧ 0 < review_type_count df r.reviewType := by
  constructor
  · have hmem : (month_of r, g r) ∈ df.map (fun r => (month_of r, g r)) :=
      List.mem_map_of_mem _ hr
    have hm : month_of r = "NaT" := by simp [month_of, monthStr, hd]
    rw [hm] at hmem
    exact List.mem_dedup.mpr hmem
  · exact List.countP_pos_iff.mpr ⟨r, hr, by simp⟩

/-- Claim C3 witness: the bad-date row of the concrete table lands in the
`("NaT", "A1")` bucket and is counted by the review-type summary. -/
theorem c3_nat_rows_bucketed_witness :
    ("NaT", "A1") ∈ trend_keys (fun r => r.asin) natRowTable ∧
    0 < review_type_count natRowTable "negative" :=
  c3_nat_rows_bucketed (fun r => r.asin) natRowTable
    ⟨"A1", "M1", Option.some 1, "negative", Option.none⟩ (by decide) rfl

/-- Claim C5: every group that appears as a row of the `rating_dist_pct`
matrix has a positive row total (so the unguarded division never sees a
zero denominator there), and its row of percentages sums to exactly 100;
groups with no counted rating do not appear as rows at all, so the
empty-group clause is vacuous. -/
theorem c5_rating_dist_row_sums (g : StatsRow → String) (df : List StatsRow)
    (k : String) (hk : k ∈ dist_groups g df) :
    0 < rating_row_total g df k ∧ rating_pct_row_sum g df k = 100 := by
  have hpos : 0 < rating_row_total g df k := by
    rw [rating_row_total_eq]
    have hmem := List.mem_dedup.mp hk
    rcases List.mem_filterMap.mp hmem with ⟨r, hr, hfr⟩
    by_cases hs : (r.rating).isSome
    · rw [if_pos hs] at hfr
      injection hfr with he
      refine List.countP_pos_iff.mpr ⟨r, hr, ?_⟩
      simp [he, hs]
    · rw [if_neg hs] at hfr
      cases hfr
  refine ⟨hpos, ?_⟩
  unfold rating_pct_row_sum rating_pct
  rw [sum_map_qdiv]
  have hsum : (((rating_keys df).map (rating_cnt g df k)).sum : ℚ) =
      (rating_row_total g df k : ℚ) := by
    simp [rating_row_total]
  rw [hsum]
  have hne : (rating_row_total g df k : ℚ) ≠ 0 := by
    exact_mod_cast Nat.pos_iff_ne_zero.mp hpos
  rw [div_self hne, one_mul]

/-- Claim C5 witness: the single group of the concrete table has a
positive total and a percentage row summing to 100. -/
theorem c5_rating_dist_row_sums_witness :
    0 < rating_row_total (fun r => r.asin) natRowTable "A1" ∧
    rating_pct_row_sum (fun r => r.asin) natRowTable "A1" = 100 :=
  c5_rating_dist_row_sums (fun r => r.asin) natRowTable "A1" (by decide)

/-- Claim C7: grouped statistics over the composite key join `Asin` and
`Model` with `" - "`; on the scenario-3 table the group `"A1 - M1"` has
count 2 and mean 4.5, the group `"A1 - M2"` has count 1, mean 2.0 and an
undefined standard deviation; in general every group with fewer than 2
counted ratings has an undefined (`NaN`) standard deviation, since its
underlying sample variance is undefined. -/
theorem c7_grouped_stats :
    group_names scenario3 = ["A1 - M1", "A1 - M2"] ∧
    group_count scenario3 "A1 - M1" = 2 ∧
    group_mean scenario3 "A1 - M1" = Option.some (9 / 2) ∧
    group_count scenario3 "A1 - M2" = 1 ∧
    group_mean scenario3 "A1 - M2" = Option.some 2 ∧
    group_var scenario3 "A1 - M2" = Option.none ∧
    (∀ df k, group_count df k < 2 → group_var df k = Option.none) := by
  refine ⟨by decide, by decide, ?_, by decide, ?_, by decide, ?_⟩
  · have h : group_ratings scenario3 "A1 - M1" = [4, 5] := by decide
    simp only [group_mean, h]
    norm_num [round2, pyRoundHalfEven]
  · have h : group_ratings scenario3 "A1 - M2" = [2] := by decide
    simp only [group_mean, h]
    norm_num [round2, pyRoundHalfEven]
  · intro df k h
    simp only [group_count] at h
    simp only [group_var, if_pos h]

/-- Claim C7 witness: a one-row group has an undefined variance. -/
theorem c7_grouped_stats_witness :
    group_var [(⟨"B", "N", Option.some 3, "neutral", Option.none⟩ : StatsRow)] "B - N" =
      Option.none :=
  c7_grouped_stats.2.2.2.2.2.2 _ _ (by decide)

/-- Claim C8: the Category Store round-trips exactly — loading right
after saving reproduces every mapping (including non-ASCII and empty
keyword strings, since the statement quantifies over all character
lists), and loading with no persisted file yields the empty mapping. -/
theorem c8_category_store_roundtrip (m : List (Str × Str)) :
    load_categories (save_categories m) = Except.ok m ∧
    load_categories Option.none = Except.ok [] := by
  refine ⟨?_, rfl⟩
  simp [load_categories, save_categories, parseObj_serObj]

/-- Claim C9: the composite-key branch of `analyze_by_group` and
`create_rating_trend_chart` mutate the caller's table: afterwards each of
the caller's rows carries the derived `Group` (resp. `Month`) column
appended, while every pre-existing column keeps its value and no row is
added or removed. -/
theorem c9_in_place_mutation (t : Table)
    (hG : ∀ r ∈ t, "Group" ∉ r.map Prod.fst)
    (hM : ∀ r ∈ t, "Month" ∉ r.map Prod.fst) :
    analyze_by_group_table t = t.map (fun r =>
      r ++ [("Group", Cell.str (getStrCell r "Asin" ++ " - " ++ getStrCell r "Model"))]) ∧
    create_rating_trend_chart_table t = t.map (fun r =>
      r ++ [("Month", Cell.str (monthStr (getDateCell r "Date")))]) ∧
    (∀ r ∈ t, ∀ n : String, n ≠ "Group" →
      (setField r "Group"
        (Cell.str (getStrCell r "Asin" ++ " - " ++ getStrCell r "Model"))).lookup n =
        r.lookup n) ∧
    (∀ r ∈ t, ∀ n : String, n ≠ "Month" →
      (setField r "Month" (Cell.str (monthStr (getDateCell r "Date")))).lookup n =
        r.lookup n) := by
  refine ⟨?_, ?_, ?_, ?_⟩
  · exact List.map_congr_left (fun r hr => setField_of_fresh r _ _ (hG r hr))
  · exact List.map_congr_left (fun r hr => setField_of_fresh r _ _ (hM r hr))
  · intro r hr n hn
    rw [setField_of_fresh r _ _ (hG r hr), lookup_append_single _ _ _ _ hn]
  · intro r hr n hn
    rw [setField_of_fresh r _ _ (hM r hr), lookup_append_single _ _ _ _ hn]

/-- Claim C9 witness: on a concrete one-row table both functions hand the
caller back its row with the derived column appended. -/
theorem c9_in_place_mutation_witness :
    analyze_by_group_table [c9row] = [c9row ++ [("Group", Cell.str "A1 - M1")]] ∧
    create_rating_trend_chart_table [c9row] = [c9row ++ [("Month", Cell.str "NaT")]] := by
  have h := c9_in_place_mutation [c9row] (by decide) (by decide)
  refine ⟨?_, ?_⟩
  · rw [h.1]; decide
  · rw [h.2.1]; decide
